import Mathlib

/-!
Shallow embedding of `slidecat` (src/slidecat/core.py and src/slidecat/cli.py),
a CLI tool that splits, merges, extracts and verifies PPTX presentations.

The underlying OOXML document library (python-pptx) is external to the
repository; we model the parts of its object model the code manipulates:

* a presentation is an ordered list of slides, a list of slide-layout ids,
  a master count, and a list of relationship ids in the package part;
* a slide carries its relationship id (`rId` of its slide-list entry), the
  ordered list of its shape elements (opaque, represented by `Nat`), its
  background fill, whether its shape tree has a title placeholder, and an
  optional library-level inspection fault (`inspectError`): when it is
  `some msg`, reading the slide's shape count / title raises with message
  `msg` (this is how we represent structurally broken slides the verifier
  must tolerate);
* the file system is abstracted: an input path resolves to a `File`, which
  is missing, corrupt (opening it raises), or a good presentation.

Effects: each operation that in Python saves output files returns the
written content in its `Except .ok` payload; every Python `raise` is an
`Except.error` carrying the exception class and message.  All validation in
the source happens before any `save` call, so an `.error` result means no
output file was written.
-/

inductive Fill where
  | solid (rgb : Nat)
  | other
deriving DecidableEq, Repr

structure Slide where
  rId : Nat
  layoutId : Nat
  shapes : List Nat
  fill : Fill
  hasTitle : Bool
  inspectError : Option String
deriving DecidableEq, Repr

instance : Inhabited Slide := ⟨⟨0, 0, [], Fill.other, false, none⟩⟩

structure Prs where
  slides : List Slide
  layouts : List Nat
  masters : Nat
  rels : List Nat
deriving DecidableEq, Repr

inductive File where
  | missing
  | corrupt (msg : String)
  | good (prs : Prs)
deriving DecidableEq, Repr

/-- Python exception classes distinguished by the CLI handlers. -/
inductive PyErr where
  | valueError (msg : String)
  | fileNotFound (msg : String)
  | otherError (msg : String)
deriving DecidableEq, Repr

instance instDecEqExcept {ε α : Type} [DecidableEq ε] [DecidableEq α] :
    DecidableEq (Except ε α)
  | Except.ok x, Except.ok y =>
      if h : x = y then Decidable.isTrue (congrArg Except.ok h)
      else Decidable.isFalse (fun hc => h (Except.ok.inj hc))
  | Except.error x, Except.error y =>
      if h : x = y then Decidable.isTrue (congrArg Except.error h)
      else Decidable.isFalse (fun hc => h (Except.error.inj hc))
  | Except.ok _, Except.error _ => Decidable.isFalse (fun hc => Except.noConfusion hc)
  | Except.error _, Except.ok _ => Decidable.isFalse (fun hc => Except.noConfusion hc)

/-- `Presentation(str(path))` on an already-existence-checked file:
a good file loads, a corrupt one raises (a pptx package error, neither
`ValueError` nor `FileNotFoundError`). -/
def loadFile : File → Except PyErr Prs
  | File.good prs => Except.ok prs
  | File.corrupt msg => Except.error (PyErr.otherError msg)
  | File.missing => Except.error (PyErr.otherError "Package not found")

/-! ### The slide-retention primitive

Inlined in both `split_presentation` (core.py:52-60) and `extract_slides`
(core.py:178-186):

    slides_to_remove = [i for i in range(len(prs.slides)) if i not in slides_to_keep]
    for slide_idx in reversed(slides_to_remove):
        rId = prs.slides._sldIdLst[slide_idx].rId
        prs.part.drop_rel(rId)
        del prs.slides._sldIdLst[slide_idx]
-/

/-- One iteration of the removal loop: read the slide-list entry's `rId`,
drop that relationship from the part, delete the slide-list entry. -/
def removeSlideAt (p : Prs) (i : Nat) : Prs :=
  let rId := (p.slides.getD i default).rId
  { p with slides := p.slides.eraseIdx i, rels := p.rels.erase rId }

/-- `[i for i in range(n) if i not in slides_to_keep]` (ascending). -/
def slidesToRemove (n : Nat) (keep : List Nat) : List Nat :=
  (List.range n).filter (fun i => decide (i ∉ keep))

/-- The retention primitive: remove the complement of `keep`, iterating in
descending index order (`reversed(slides_to_remove)`). -/
def retainSlides (p : Prs) (keep : List Nat) : Prs :=
  ((slidesToRemove p.slides.length keep).reverse).foldl removeSlideAt p

/-- Specification-side observation function: the elements of `l` whose
position (counting from `n`) satisfies `p`, in their original order. -/
def idxFilter (p : Nat → Bool) : Nat → List α → List α
  | _, [] => []
  | n, a :: l => if p n then a :: idxFilter p (n + 1) l else idxFilter p (n + 1) l

/-! ### Splitter (`split_presentation`, core.py:9-74) -/

/-- Python `range(start, stop, step)` for a positive step, with structural
fuel (`stop - start` suffices since each iteration advances by `step ≥ 1`)
so that the definition evaluates inside the kernel. -/
def pyRangeAux : Nat → Nat → Nat → Nat → List Nat
  | 0, _, _, _ => []
  | fuel + 1, start, stop, step =>
      if 0 < step ∧ start < stop then start :: pyRangeAux fuel (start + step) stop step
      else []

def pyRange (start stop step : Nat) : List Nat :=
  pyRangeAux (stop - start) start stop step

/-- Python `f"{n:03d}"` for a non-negative value: zero-pad to width 3. -/
def pad3 (n : Nat) : String :=
  let s := toString n
  String.mk (List.replicate (3 - s.length) '0') ++ s

/-- Output filename of one chunk (core.py:62-68); the branch tests the
requested chunk size, not the chunk's actual slide count. -/
def chunkName (stem : String) (chunkSize startIdx endIdx : Nat) : String :=
  if chunkSize = 1 then
    stem ++ "_slide_" ++ pad3 (startIdx + 1) ++ ".pptx"
  else
    stem ++ "_slides_" ++ pad3 (startIdx + 1) ++ "-" ++ pad3 endIdx ++ ".pptx"

/-- One loop iteration body: load a fresh copy of the source and apply the
retention primitive with keep-set `range(start_idx, end_idx)`. -/
def splitChunk (prs : Prs) (startIdx chunkSize : Nat) : Prs :=
  let endIdx := min (startIdx + chunkSize) prs.slides.length
  retainSlides prs (List.range' startIdx (endIdx - startIdx))

/-- The `for start_idx in range(0, total_slides, chunk_size)` loop:
one (filename, saved presentation) pair per chunk, in chunk order. -/
def splitLoop (prs : Prs) (stem : String) (chunkSize : Nat) : List (String × Prs) :=
  (pyRange 0 prs.slides.length chunkSize).map (fun startIdx =>
    (chunkName stem chunkSize startIdx (min (startIdx + chunkSize) prs.slides.length),
     splitChunk prs startIdx chunkSize))

/-- `split_presentation(input_file, output_dir, chunk_size)`.  The returned
list holds, per created file, its name and the presentation written to it. -/
def split_presentation (path : String) (input : File) (stem : String)
    (chunkSize : Option Nat) : Except PyErr (List (String × Prs)) :=
  match input with
  | File.missing => Except.error (PyErr.fileNotFound ("Input file not found: " ++ path))
  | File.corrupt msg => Except.error (PyErr.otherError msg)
  | File.good prs =>
      if prs.slides.length = 0 then
        Except.error (PyErr.valueError ("No slides found in " ++ path))
      else
        match chunkSize with
        | some c =>
            if c < 1 then
              Except.error (PyErr.valueError ("Chunk size must be at least 1, got " ++ toString c))
            else Except.ok (splitLoop prs stem c)
        | none => Except.ok (splitLoop prs stem 1)

/-! ### Extractor (`extract_slides`, core.py:137-194)

`start` and `end` are Python ints (possibly negative), so they are modelled
as `Int`. -/

def extract_slides (path : String) (input : File) (start : Int)
    (endOpt : Option Int) : Except PyErr Prs :=
  match input with
  | File.missing => Except.error (PyErr.fileNotFound ("Input file not found: " ++ path))
  | File.corrupt msg => Except.error (PyErr.otherError msg)
  | File.good prs =>
      let total := prs.slides.length
      if total = 0 then
        Except.error (PyErr.valueError ("No slides found in " ++ path))
      else if start < 1 ∨ (total : Int) < start then
        Except.error (PyErr.valueError
          ("Start slide " ++ toString start ++ " is out of range (1-" ++ toString total ++ ")"))
      else
        let endv := endOpt.getD (total : Int)
        if endv < start ∨ (total : Int) < endv then
          Except.error (PyErr.valueError
            ("End slide " ++ toString endv ++ " is out of range ("
              ++ toString start ++ "-" ++ toString total ++ ")"))
        else
          Except.ok (retainSlides prs
            (List.range' (start - 1).toNat (endv.toNat - (start - 1).toNat)))

/-! ### Merger (`merge_presentations`, core.py:77-134)

Library behaviour modelled here:
* `prs.slide_layouts[6]` / `[0]`: an out-of-range subscript raises
  `IndexError("list index out of range")` — `[6]` is caught and falls back
  to `[0]`, whose failure propagates;
* `slides.add_slide(blank_layout)` creates a slide on that layout with an
  empty shape tree (a blank layout carries no placeholders);
* `copy.deepcopy(shape.element)` of an opaque shape value is the value
  itself, appended to the new slide's shape tree in iteration order;
* `if slide.background:` is always truthy in python-pptx, so the background
  block always runs: `fill.solid()` first sets a solid fill (default
  colour, modelled `solid 0`), then reading the source's
  `fill.fore_color.rgb` succeeds only for a solid source fill; the raise on
  a non-solid source is swallowed by the bare `except`, leaving the fresh
  solid fill in place. -/

def blankOf (layouts : List Nat) : Option Nat :=
  match layouts.get? 6 with
  | some l => some l
  | none => layouts.get? 0

/-- `merged_prs.slide_layouts[6]` with `IndexError` fallback to `[0]`. -/
def chooseLayout (p : Prs) : Except PyErr Nat :=
  match blankOf p.layouts with
  | some l => Except.ok l
  | none => Except.error (PyErr.otherError "list index out of range")

/-- The slide the merge loop body adds for source slide `s`: blank layout,
deep-copied shapes in order, best-effort background. -/
def recreatedSlide (lay : Nat) (s : Slide) : Slide :=
  { rId := 0
    layoutId := lay
    shapes := s.shapes
    fill :=
      match s.fill with
      | Fill.solid rgb => Fill.solid rgb
      | Fill.other => Fill.solid 0
    hasTitle := false
    inspectError := none }

/-- `for slide in prs.slides: ...` — append a re-created copy of every
slide of `src` to `acc`. -/
def addSlides (acc : Prs) (src : Prs) : Except PyErr Prs :=
  src.slides.foldlM (fun a s => do
    let lay ← chooseLayout a
    pure { a with slides := a.slides ++ [recreatedSlide lay s] }) acc

/-- The `for file in input_files: if not file.exists(): raise` loop. -/
def checkExists : List (String × File) → Except PyErr Unit
  | [] => Except.ok ()
  | (p, File.missing) :: _ =>
      Except.error (PyErr.fileNotFound ("Input file not found: " ++ p))
  | _ :: rest => checkExists rest

def merge_presentations (files : List (String × File)) (outPath : String) :
    Except PyErr (String × Prs) :=
  match files with
  | [] => Except.error (PyErr.valueError "No input files provided")
  | first :: rest => do
      checkExists (first :: rest)
      let base ← loadFile first.2
      let merged ← rest.foldlM (fun acc q => do
        let prs ← loadFile q.2
        addSlides acc prs) base
      pure (outPath, merged)

/-! ### Verifier (`verify_presentation`, core.py:197-254) -/

structure SlideInfo where
  number : Nat
  shapes : Nat
  hasTitle : Bool
  error : Option String
deriving DecidableEq, Repr

structure Report where
  valid : Bool
  error : Option String
  slides : Nat
  slide_details : List SlideInfo
  layouts : Nat
  masters : Nat
deriving DecidableEq, Repr

/-- The per-slide `try` block: on a library fault the fields assigned so
far keep their initial values and the exception text lands in `error`. -/
def inspectSlide (idx : Nat) (s : Slide) : SlideInfo :=
  match s.inspectError with
  | some e => { number := idx, shapes := 0, hasTitle := false, error := some e }
  | none =>
      { number := idx, shapes := s.shapes.length, hasTitle := s.hasTitle, error := none }

def verify_presentation (path : String) (input : File) : Report :=
  match input with
  | File.missing =>
      { valid := false, error := some ("File not found: " ++ path), slides := 0,
        slide_details := [], layouts := 0, masters := 0 }
  | File.corrupt msg =>
      { valid := false, error := some msg, slides := 0,
        slide_details := [], layouts := 0, masters := 0 }
  | File.good prs =>
      { valid := true
        error := none
        slides := prs.slides.length
        slide_details := (prs.slides.enumFrom 1).map (fun q => inspectSlide q.1 q.2)
        layouts := prs.layouts.length
        masters := prs.masters }

/-! ### CLI `extract` command body (cli.py:107-134)

The body receives the input path and the raw range string.  It parses the
range before touching the document; `sys.exit(1)` after `click.echo` is an
`errorExit` carrying the printed line.  The `except ValueError` arm catches
both `int()` parse failures and the `ValueError`s `extract_slides` raises. -/

inductive CliOutcome where
  | success (out : Prs)
  | errorExit (printed : String)
deriving DecidableEq, Repr

/-- `'-' in slide_range` (substring test degenerates to a character test
for a single-character needle). -/
def containsDash (s : String) : Bool := s.data.contains '-'

/-- Strip leading and trailing whitespace, as `int()` does before parsing. -/
def stripWs (l : List Char) : List Char :=
  ((l.dropWhile Char.isWhitespace).reverse.dropWhile Char.isWhitespace).reverse

/-- Decimal value of a digit string. -/
def digitsVal (l : List Char) : Nat :=
  l.foldl (fun n c => n * 10 + (c.toNat - ('0').toNat)) 0

/-- Python `int(s)`: optional surrounding whitespace, optional sign, at
least one ASCII digit, base 10.  Underscore digit grouping is not modelled. -/
def pyIntCore (s : String) : Option Int :=
  let t := stripWs s.data
  let signDigits : Int × List Char :=
    match t with
    | '-' :: rest => (-1, rest)
    | '+' :: rest => (1, rest)
    | _ => (1, t)
  if signDigits.2.isEmpty then none
  else if signDigits.2.all Char.isDigit then
    some (signDigits.1 * Int.ofNat (digitsVal signDigits.2))
  else none

/-- `int(s)` as the CLI sees it: a parse failure is a `ValueError` whose
text names the rejected literal. -/
def pyInt (s : String) : Except String Int :=
  match pyIntCore s with
  | some n => Except.ok n
  | none => Except.error ("invalid literal for int() with base 10: '" ++ s ++ "'")

/-- `slide_range.split('-', 1)` on a string containing a dash: the
characters before the first `-` and everything after it. -/
def splitAtDash : List Char → List Char × List Char
  | [] => ([], [])
  | c :: rest =>
      if c = '-' then ([], rest)
      else
        let p := splitAtDash rest
        (c :: p.1, p.2)

def splitFirstDash (s : String) : String × String :=
  (String.mk (splitAtDash s.data).1, String.mk (splitAtDash s.data).2)

/-- `int(parts[1]) if parts[1] else None`. -/
def parseEnd (t : String) : Except String (Option Int) :=
  if t = "" then Except.ok none
  else (pyInt t).map some

def cliExtract (path : String) (input : File) (_output : String)
    (slideRange : String) : CliOutcome :=
  if ¬ containsDash slideRange then
    CliOutcome.errorExit "Error: Range must be in format 'start-end' or 'start-'"
  else
    let parts := splitFirstDash slideRange
    match pyInt parts.1 with
    | Except.error e => CliOutcome.errorExit ("Error: Invalid range format - " ++ e)
    | Except.ok start =>
        match parseEnd parts.2 with
        | Except.error e => CliOutcome.errorExit ("Error: Invalid range format - " ++ e)
        | Except.ok endv =>
            match extract_slides path input start endv with
            | Except.ok out => CliOutcome.success out
            | Except.error (PyErr.valueError m) =>
                CliOutcome.errorExit ("Error: Invalid range format - " ++ m)
            | Except.error (PyErr.fileNotFound m) =>
                CliOutcome.errorExit ("Error: " ++ m)
            | Except.error (PyErr.otherError m) =>
                CliOutcome.errorExit ("Error: " ++ m)

/-! ### Merge characterization -/

/-- The layout `add_slide` receives once the base has at least one layout. -/
def blankLayout (layouts : List Nat) : Nat := (blankOf layouts).getD 0

/-- The slides the merge loop appends for sources `rest`, re-created on the
base's blank layout, in source-then-slide order. -/
def appendedSlides (base : Prs) (rest : List (String × Prs)) : List Slide :=
  List.map (recreatedSlide (blankLayout base.layouts))
    ((rest.map (fun q => q.2.slides)).flatten)

/-! ### Concrete sample documents used by the witnesses -/

def demoSlide (n : Nat) : Slide :=
  { rId := 10 + n, layoutId := 0, shapes := [n], fill := Fill.solid n,
    hasTitle := false, inspectError := none }

def demoPrs : Prs :=
  { slides := [demoSlide 0, demoSlide 1, demoSlide 2], layouts := [100], masters := 1,
    rels := [10, 11, 12] }

def demoPrs5 : Prs :=
  { slides := [demoSlide 0, demoSlide 1, demoSlide 2, demoSlide 3, demoSlide 4],
    layouts := [100], masters := 1, rels := [10, 11, 12, 13, 14] }

/-- A deck whose slides all carry a non-solid fill, so every
background-copy attempt during a merge raises. -/
def demoPrsOther : Prs :=
  { slides := [{ demoSlide 0 with fill := Fill.other },
               { demoSlide 1 with fill := Fill.other }],
    layouts := [100], masters := 1, rels := [10, 11] }

theorem idxFilter_congr {p q : Nat → Bool} (h : ∀ i, p i = q i) :
    ∀ (n : Nat) (l : List α), idxFilter p n l = idxFilter q n l := by
  intro n l
  induction l generalizing n with
  | nil => rfl
  | cons a l ih => simp [idxFilter, h n, ih]

theorem idxFilter_shift (p : Nat → Bool) :
    ∀ (l : List α) (n : Nat), idxFilter p (n + 1) l = idxFilter (fun i => p (i + 1)) n l := by
  intro l
  induction l with
  | nil => intro n; rfl
  | cons a l ih => intro n; simp [idxFilter, ih]

theorem idxFilter_false (p : Nat → Bool) (hp : ∀ i, p i = false) :
    ∀ (l : List α) (n : Nat), idxFilter p n l = [] := by
  intro l
  induction l with
  | nil => intro n; rfl
  | cons a l ih => intro n; simp [idxFilter, hp n, ih]

theorem idxFilter_append (p : Nat → Bool) :
    ∀ (l l' : List α) (n : Nat),
      idxFilter p n (l ++ l') = idxFilter p n l ++ idxFilter p (n + l.length) l' := by
  intro l
  induction l with
  | nil => intro l' n; simp [idxFilter]
  | cons a l ih =>
      intro l' n
      by_cases h : p n <;>
        simp [idxFilter, h, ih, Nat.add_comm, Nat.add_assoc, Nat.add_left_comm]

/-- Keeping the index window `[s, s+k)` is `drop s` then `take k`. -/
theorem idxFilter_window :
    ∀ (l : List α) (s k : Nat),
      idxFilter (fun i => decide (s ≤ i) && decide (i < s + k)) 0 l = (l.drop s).take k := by
  intro l
  induction l with
  | nil => intro s k; simp [idxFilter]
  | cons a l ih =>
      intro s k
      match s, k with
      | 0, 0 =>
          rw [idxFilter_false]
          · simp
          · intro i; simp only [← Bool.decide_and, decide_eq_false_iff_not]; omega
      | 0, k + 1 =>
          have hcond : (decide (0 ≤ 0) && decide (0 < 0 + (k + 1))) = true := by
            simp only [← Bool.decide_and, decide_eq_true_eq]; omega
          have hq : ∀ i : Nat, (decide (0 ≤ i + 1) && decide (i + 1 < 0 + (k + 1)))
              = (decide (0 ≤ i) && decide (i < 0 + k)) := by
            intro i; simp only [← Bool.decide_and, decide_eq_decide]; omega
          simp only [idxFilter, hcond, if_true]
          rw [idxFilter_shift, idxFilter_congr hq 0 l, ih 0 k]
          simp
      | s + 1, k =>
          have hcond : (decide (s + 1 ≤ 0) && decide (0 < s + 1 + k)) = false := by
            simp only [← Bool.decide_and, decide_eq_false_iff_not]; omega
          have hq : ∀ i : Nat, (decide (s + 1 ≤ i + 1) && decide (i + 1 < s + 1 + k))
              = (decide (s ≤ i) && decide (i < s + k)) := by
            intro i; simp only [← Bool.decide_and, decide_eq_decide]; omega
          simp only [idxFilter, hcond, if_false]
          rw [idxFilter_shift, idxFilter_congr hq 0 l, ih s k]
          rfl

/-! ### Correctness of descending-order index deletion -/

/-- Deleting strictly descending in-range indices never touches a trailing
element appended on the right. -/
theorem foldl_eraseIdx_append_singleton :
    ∀ (ds : List Nat) (l : List α) (a : α),
      ds.Pairwise (· > ·) → (∀ d ∈ ds, d < l.length) →
      ds.foldl List.eraseIdx (l ++ [a]) = ds.foldl List.eraseIdx l ++ [a] := by
  intro ds
  induction ds with
  | nil => intro l a _ _; rfl
  | cons d ds ih =>
      intro l a hpw hlt
      have hd : d < l.length := hlt d (by simp)
      have hpw' := (List.pairwise_cons.mp hpw)
      simp only [List.foldl_cons]
      rw [List.eraseIdx_append_of_lt_length hd]
      refine ih _ a hpw'.2 ?_
      intro e he
      have helt : e < d := hpw'.1 e he
      have : (l.eraseIdx d).length = l.length - 1 := by
        rw [List.length_eraseIdx]; simp [hd]
      omega

/-- Core correctness of the retention pattern: computing the ascending list
of indices where `p` fails, then deleting them in reverse (descending)
order, keeps exactly the positions where `p` holds, in order. -/
theorem foldl_eraseIdx_filter :
    ∀ (l : List α) (p : Nat → Bool),
      (((List.range l.length).filter (fun i => !(p i))).reverse).foldl List.eraseIdx l
        = idxFilter p 0 l := by
  intro l
  induction l using List.reverseRecOn with
  | nil => intro p; rfl
  | append_singleton l a ih =>
      intro p
      have hlen : (l ++ [a]).length = l.length + 1 := by simp
      rw [hlen, List.range_succ, List.filter_append, List.reverse_append]
      rw [idxFilter_append]
      by_cases hp : p l.length
      · have hB : List.filter (fun i => !(p i)) [l.length] = [] := by
          simp [List.filter, hp]
        rw [hB]
        simp only [List.reverse_nil, List.nil_append]
        have hpair : (((List.range l.length).filter (fun i => !(p i))).reverse).Pairwise
            (· > ·) := by
          rw [List.pairwise_reverse]
          exact (List.pairwise_lt_range l.length).filter _
        have hbound : ∀ d ∈ ((List.range l.length).filter (fun i => !(p i))).reverse,
            d < l.length := by
          intro d hdm
          rw [List.mem_reverse] at hdm
          have := List.of_mem_filter hdm
          have := List.mem_filter.mp hdm
          exact List.mem_range.mp this.1
        rw [foldl_eraseIdx_append_singleton _ _ _ hpair hbound, ih p]
        simp [idxFilter, hp]
      · have hB : List.filter (fun i => !(p i)) [l.length] = [l.length] := by
          simp [List.filter, hp]
        rw [hB]
        simp only [List.reverse_singleton, List.singleton_append, List.foldl_cons]
        rw [List.eraseIdx_append_of_length_le (Nat.le_refl _)]
        simp only [Nat.sub_self, List.eraseIdx_cons_zero, List.append_nil]
        rw [ih p]
        simp [idxFilter, hp]

/-- The removal loop only rewrites `slides` and `rels`; its effect on the
slide list is the plain `eraseIdx` fold. -/
theorem foldl_removeSlideAt_slides :
    ∀ (ds : List Nat) (p : Prs),
      (ds.foldl removeSlideAt p).slides = ds.foldl List.eraseIdx p.slides := by
  intro ds
  induction ds with
  | nil => intro p; rfl
  | cons d ds ih => intro p; simp [removeSlideAt, ih]

theorem foldl_removeSlideAt_layouts :
    ∀ (ds : List Nat) (p : Prs), (ds.foldl removeSlideAt p).layouts = p.layouts := by
  intro ds
  induction ds with
  | nil => intro p; rfl
  | cons d ds ih => intro p; simp [removeSlideAt, ih]

theorem foldl_removeSlideAt_masters :
    ∀ (ds : List Nat) (p : Prs), (ds.foldl removeSlideAt p).masters = p.masters := by
  intro ds
  induction ds with
  | nil => intro p; rfl
  | cons d ds ih => intro p; simp [removeSlideAt, ih]

/-- Unconditional form of the retention contract. -/
theorem retainSlides_slides (p : Prs) (keep : List Nat) :
    (retainSlides p keep).slides = idxFilter (fun i => decide (i ∈ keep)) 0 p.slides := by
  unfold retainSlides slidesToRemove
  rw [foldl_removeSlideAt_slides]
  have h : (List.range p.slides.length).filter (fun i => decide (i ∉ keep))
      = (List.range p.slides.length).filter (fun i => !(decide (i ∈ keep))) := by
    apply List.filter_congr
    intro i _
    simp
  rw [h, foldl_eraseIdx_filter]

theorem retainSlides_layouts (p : Prs) (keep : List Nat) :
    (retainSlides p keep).layouts = p.layouts := by
  unfold retainSlides
  rw [foldl_removeSlideAt_layouts]

theorem pyRangeAux_congr (stop step : Nat) (hs : 0 < step) :
    ∀ fuel fuel' start, stop - start ≤ fuel → stop - start ≤ fuel' →
      pyRangeAux fuel start stop step = pyRangeAux fuel' start stop step := by
  intro fuel
  induction fuel with
  | zero =>
      intro fuel' start h1 h2
      cases fuel' with
      | zero => rfl
      | succ f' =>
          simp only [pyRangeAux]
          rw [if_neg (by omega)]
  | succ fuel ih =>
      intro fuel' start h1 h2
      by_cases hlt : start < stop
      · cases fuel' with
        | zero => omega
        | succ f' =>
            simp only [pyRangeAux]
            rw [if_pos ⟨hs, hlt⟩, if_pos ⟨hs, hlt⟩]
            congr 1
            exact ih f' (start + step) (by omega) (by omega)
      · cases fuel' with
        | zero =>
            simp only [pyRangeAux]
            rw [if_neg (by omega)]
        | succ f' =>
            simp only [pyRangeAux]
            rw [if_neg (by omega), if_neg (by omega)]

/-- The recurrence `range(start, stop, step)` satisfies. -/
theorem pyRange_unfold (start stop step : Nat) (hs : 0 < step) :
    pyRange start stop step
      = if start < stop then start :: pyRange (start + step) stop step else [] := by
  unfold pyRange
  by_cases h : start < stop
  · rw [if_pos h]
    have e1 : stop - start = (stop - start - 1) + 1 := by omega
    rw [e1]
    simp only [pyRangeAux]
    rw [if_pos ⟨hs, h⟩]
    congr 1
    exact pyRangeAux_congr stop step hs (stop - start - 1) (stop - (start + step))
      (start + step) (by omega) (by omega)
  · rw [if_neg h]
    have e1 : stop - start = 0 := by omega
    rw [e1]
    rfl

theorem pyRange_eq_map (stop step : Nat) (hs : 0 < step) :
    ∀ start, pyRange start stop step
      = (List.range ((stop - start + step - 1) / step)).map (fun i => start + i * step) := by
  intro start
  rw [pyRange_unfold start stop step hs]
  by_cases h : start < stop
  · rw [if_pos h]
    rw [pyRange_eq_map stop step hs (start + step)]
    have hA : (stop - start + step - 1) / step
        = (stop - (start + step) + step - 1) / step + 1 := by
      by_cases hc : start + step < stop
      · have e1 : stop - start + step - 1 = (stop - (start + step) + step - 1) + step := by
          omega
        rw [e1, Nat.add_div_right _ hs]
      · have e3 : (stop - (start + step) + step - 1) / step = 0 := by
          apply Nat.div_eq_of_lt; omega
        have e4 : stop - start + step - 1 = (stop - start - 1) + step := by omega
        rw [e3, e4, Nat.add_div_right _ hs, Nat.div_eq_of_lt (by omega)]
    rw [hA, List.range_succ_eq_map, List.map_cons, List.map_map]
    congr 1
    · simp
    · apply List.map_congr_left
      intro i _
      simp only [Function.comp_apply, Nat.succ_eq_add_one]
      ring
  · rw [if_neg h]
    have e1 : stop - start = 0 := by omega
    rw [e1, Nat.div_eq_of_lt (by omega)]
    simp
termination_by start => stop - start
decreasing_by omega

/-- The slides written for chunk `[s, min (s+c) total)` are exactly that
window of the source. -/
theorem splitChunk_slides (prs : Prs) (s c : Nat) :
    (splitChunk prs s c).slides
      = (prs.slides.drop s).take (min (s + c) prs.slides.length - s) := by
  unfold splitChunk
  rw [retainSlides_slides]
  have hq : ∀ i : Nat,
      decide (i ∈ List.range' s (min (s + c) prs.slides.length - s))
        = (decide (s ≤ i) && decide (i < s + (min (s + c) prs.slides.length - s))) := by
    intro i
    simp only [← Bool.decide_and, decide_eq_decide]
    exact List.mem_range'_1
  rw [idxFilter_congr hq 0 _, idxFilter_window]

theorem splitChunk_layouts (prs : Prs) (s c : Nat) :
    (splitChunk prs s c).layouts = prs.layouts := by
  unfold splitChunk
  rw [retainSlides_layouts]

/-- Concatenating the chunk windows in chunk order restores the tail of the
source from `start` on. -/
theorem splitChunks_flatten (c : Nat) (hc : 0 < c) (l : List α) :
    ∀ start,
      ((pyRange start l.length c).map
        (fun s => (l.drop s).take (min (s + c) l.length - s))).flatten = l.drop start := by
  intro start
  rw [pyRange_unfold start l.length c hc]
  by_cases h : start < l.length
  · rw [if_pos h]
    simp only [List.map_cons, List.flatten_cons]
    rw [splitChunks_flatten c hc l (start + c)]
    by_cases h2 : start + c ≤ l.length
    · have e1 : min (start + c) l.length - start = c := by omega
      rw [e1]
      have e2 : l.drop (start + c) = (l.drop start).drop c := by
        rw [List.drop_drop]
      rw [e2, List.take_append_drop]
    · have e1 : min (start + c) l.length - start = l.length - start := by omega
      have e2 : l.drop (start + c) = [] := List.drop_eq_nil_of_le (by omega)
      rw [e1, e2, List.append_nil]
      apply List.take_of_length_le
      rw [List.length_drop]
  · rw [if_neg h]
    simp only [List.map_nil, List.flatten_nil]
    exact (List.drop_eq_nil_of_le (by omega)).symm
termination_by start => l.length - start
decreasing_by omega

/-- Basic facts about `ceil(T/c) = (T + c - 1) / c` for `T, c ≥ 1`. -/
theorem ceil_div_facts (T c : Nat) (hT : 0 < T) (hc : 0 < c) :
    0 < (T + c - 1) / c ∧ T ≤ ((T + c - 1) / c) * c ∧ ((T + c - 1) / c - 1) * c < T := by
  have h1 := Nat.div_add_mod (T + c - 1) c
  have h2 : (T + c - 1) % c < c := Nat.mod_lt _ hc
  have hKpos : 0 < (T + c - 1) / c := by
    rcases Nat.eq_zero_or_pos ((T + c - 1) / c) with h0 | h0
    · rw [h0, Nat.mul_zero] at h1; omega
    · exact h0
  have hmul : ((T + c - 1) / c) * c = c * ((T + c - 1) / c) := Nat.mul_comm _ _
  have hsub : ((T + c - 1) / c - 1) * c = ((T + c - 1) / c) * c - c := by
    rw [Nat.sub_mul, Nat.one_mul]
  refine ⟨hKpos, ?_, ?_⟩
  · omega
  · omega

/-- Length of the last chunk, in the `T mod c` form the spec uses. -/
theorem last_chunk_len (T c : Nat) (hT : 0 < T) (hc : 0 < c) :
    T - ((T + c - 1) / c - 1) * c = if T % c = 0 then c else T % c := by
  have hd := Nat.div_add_mod T c
  have hr : T % c < c := Nat.mod_lt _ hc
  by_cases h0 : T % c = 0
  · rw [if_pos h0]
    have hq1 : 0 < T / c := by
      rcases Nat.eq_zero_or_pos (T / c) with h | h
      · rw [h, Nat.mul_zero] at hd; omega
      · exact h
    have hKq : (T + c - 1) / c = T / c := by
      have e : T + c - 1 = c * (T / c) + (c - 1) := by omega
      rw [e, Nat.mul_add_div hc, Nat.div_eq_of_lt (show c - 1 < c by omega), Nat.add_zero]
    rw [hKq]
    have e2 : (T / c - 1) * c = c * (T / c) - c := by
      rw [Nat.sub_mul, Nat.one_mul, Nat.mul_comm]
    have hPc : c ≤ c * (T / c) := Nat.le_mul_of_pos_right c hq1
    rw [e2]
    omega
  · rw [if_neg h0]
    have hKq : (T + c - 1) / c = T / c + 1 := by
      have e : T + c - 1 = c * (T / c) + (T % c - 1 + c) := by omega
      rw [e, Nat.mul_add_div hc, Nat.add_div_right _ hc,
        Nat.div_eq_of_lt (show T % c - 1 < c by omega), Nat.zero_add]
    rw [hKq]
    have e2 : (T / c + 1 - 1) * c = c * (T / c) := by
      simp [Nat.mul_comm]
    rw [e2]
    omega

/-- On a good non-empty source and a valid chunk size, `split_presentation`
returns the loop's output. -/
theorem split_presentation_ok (path stem : String) (prs : Prs) (c : Nat)
    (hT : 0 < prs.slides.length) (hc : 0 < c) :
    split_presentation path (File.good prs) stem (some c) = Except.ok (splitLoop prs stem c) := by
  simp only [split_presentation]
  rw [if_neg (by omega), if_neg (by omega)]

theorem chooseLayout_ok (p : Prs) (h : p.layouts ≠ []) :
    chooseLayout p = Except.ok (blankLayout p.layouts) := by
  unfold chooseLayout blankLayout blankOf
  cases h6 : p.layouts.get? 6 with
  | some l => rfl
  | none =>
      cases hL : p.layouts with
      | nil => exact absurd hL h
      | cons a L => simp [hL]

theorem addSlides_go :
    ∀ (ss : List Slide) (acc : Prs), acc.layouts ≠ [] →
      (ss.foldlM (fun a s => do
        let lay ← chooseLayout a
        pure { a with slides := a.slides ++ [recreatedSlide lay s] }) acc
        : Except PyErr Prs)
      = Except.ok
          { acc with slides := acc.slides ++ ss.map (recreatedSlide (blankLayout acc.layouts)) } := by
  intro ss
  induction ss with
  | nil =>
      intro acc h
      simp only [List.foldlM]
      rw [List.map_nil, List.append_nil]
      rfl
  | cons s ss ih =>
      intro acc h
      rw [List.foldlM_cons, chooseLayout_ok acc h]
      show (ss.foldlM _ { acc with slides := acc.slides ++ [recreatedSlide (blankLayout acc.layouts) s] } : Except PyErr Prs) = _
      rw [ih { acc with slides := acc.slides ++ [recreatedSlide (blankLayout acc.layouts) s] } h]
      simp [List.append_assoc]

theorem addSlides_ok (acc src : Prs) (h : acc.layouts ≠ []) :
    addSlides acc src = Except.ok
      { acc with slides := acc.slides ++ src.slides.map (recreatedSlide (blankLayout acc.layouts)) } := by
  unfold addSlides
  exact addSlides_go src.slides acc h

theorem checkExists_ok :
    ∀ (files : List (String × File)), (∀ q ∈ files, q.2 ≠ File.missing) →
      checkExists files = Except.ok () := by
  intro files
  induction files with
  | nil => intro _; rfl
  | cons q rest ih =>
      intro h
      obtain ⟨p, f⟩ := q
      cases f with
      | missing => exact absurd rfl (h (p, File.missing) (by simp))
      | corrupt m =>
          show checkExists rest = Except.ok ()
          exact ih (fun q hq => h q (List.mem_cons_of_mem _ hq))
      | good prs =>
          show checkExists rest = Except.ok ()
          exact ih (fun q hq => h q (List.mem_cons_of_mem _ hq))

theorem mergeLoop_ok :
    ∀ (rest : List (String × Prs)) (base : Prs), base.layouts ≠ [] →
      ((rest.map (fun q => (q.1, File.good q.2))).foldlM (fun acc q => do
        let prs ← loadFile q.2
        addSlides acc prs) base : Except PyErr Prs)
      = Except.ok { base with slides := base.slides ++ appendedSlides base rest } := by
  intro rest
  induction rest with
  | nil =>
      intro base h
      show (pure base : Except PyErr Prs) = _
      rw [show appendedSlides base [] = [] from rfl, List.append_nil]
      rfl
  | cons q rest ih =>
      intro base h
      rw [List.map_cons, List.foldlM_cons]
      show (addSlides base q.2 >>= fun b =>
        ((rest.map (fun q => (q.1, File.good q.2))).foldlM _ b : Except PyErr Prs)) = _
      rw [addSlides_ok base q.2 h]
      show ((rest.map (fun q => (q.1, File.good q.2))).foldlM _
        { base with slides := base.slides
            ++ q.2.slides.map (recreatedSlide (blankLayout base.layouts)) } : Except PyErr Prs) = _
      rw [ih { base with slides := base.slides
            ++ q.2.slides.map (recreatedSlide (blankLayout base.layouts)) } h]
      unfold appendedSlides
      simp [List.append_assoc]

theorem merge_presentations_ok (p0 : String) (base : Prs)
    (rest : List (String × Prs)) (out : String) (h : base.layouts ≠ []) :
    merge_presentations ((p0, File.good base) :: rest.map (fun q => (q.1, File.good q.2))) out
      = Except.ok (out, { base with slides := base.slides ++ appendedSlides base rest }) := by
  have hce : checkExists ((p0, File.good base) :: rest.map (fun q => (q.1, File.good q.2)))
      = Except.ok () := by
    apply checkExists_ok
    intro q hq
    rcases List.mem_cons.mp hq with h1 | h1
    · rw [h1]; intro hcon; cases hcon
    · obtain ⟨r, _, rfl⟩ := List.mem_map.mp h1
      intro hcon; cases hcon
  show (checkExists _ >>= fun _ => _) = _
  rw [hce]
  show (((rest.map (fun q => (q.1, File.good q.2))).foldlM _ base : Except PyErr Prs)
    >>= fun merged => pure (out, merged)) = _
  rw [mergeLoop_ok rest base h]
  rfl

/-! ### Split loop characterization -/

theorem splitLoop_eq (prs : Prs) (stem : String) (c : Nat) (hc : 0 < c) :
    splitLoop prs stem c
      = (List.range ((prs.slides.length + c - 1) / c)).map (fun i =>
          (chunkName stem c (i * c) (min (i * c + c) prs.slides.length),
           splitChunk prs (i * c) c)) := by
  unfold splitLoop
  rw [pyRange_eq_map _ _ hc 0, List.map_map]
  simp only [Nat.sub_zero, Nat.zero_add]
  rfl

theorem splitLoop_length (prs : Prs) (stem : String) (c : Nat) (hc : 0 < c) :
    (splitLoop prs stem c).length = (prs.slides.length + c - 1) / c := by
  rw [splitLoop_eq prs stem c hc, List.length_map, List.length_range]

theorem splitLoop_flatten (prs : Prs) (stem : String) (c : Nat) (hc : 0 < c) :
    (((splitLoop prs stem c).map (fun q => q.2.slides)).flatten) = prs.slides := by
  unfold splitLoop
  rw [List.map_map]
  have hcomp : ((fun q : String × Prs => q.2.slides) ∘ (fun startIdx =>
      (chunkName stem c startIdx (min (startIdx + c) prs.slides.length),
       splitChunk prs startIdx c)))
      = fun s => (prs.slides.drop s).take (min (s + c) prs.slides.length - s) := by
    funext s
    exact splitChunk_slides prs s c
  rw [hcomp, splitChunks_flatten c hc prs.slides 0, List.drop_zero]

/-- The per-chunk slide counts, in the "all `c`, except the last which is
`T mod c` (or `c` on exact division)" form. -/
theorem chunk_lens (T c : Nat) (hT : 0 < T) (hc : 0 < c) :
    (List.range ((T + c - 1) / c)).map (fun i => min (min (i * c + c) T - i * c) (T - i * c))
      = List.replicate ((T + c - 1) / c - 1) c
          ++ [if T % c = 0 then c else T % c] := by
  obtain ⟨hK, hTle, hKlt⟩ := ceil_div_facts T c hT hc
  have hKsucc : (T + c - 1) / c = ((T + c - 1) / c - 1) + 1 := by omega
  conv_lhs => rw [hKsucc]
  rw [List.range_succ, List.map_append, List.map_singleton]
  congr 1
  · have hall : ∀ i ∈ List.range ((T + c - 1) / c - 1),
        min (min (i * c + c) T - i * c) (T - i * c) = c := by
      intro i hi
      have hi' : i < (T + c - 1) / c - 1 := List.mem_range.mp hi
      have h1 : (i + 1) * c ≤ ((T + c - 1) / c - 1) * c :=
        Nat.mul_le_mul_right c (by omega)
      have e : (i + 1) * c = i * c + c := by rw [Nat.add_mul, Nat.one_mul]
      omega
    rw [List.map_congr_left hall]
    rw [show (fun _ : Nat => c) = Function.const Nat c from rfl, List.map_const,
      List.length_range]
  · have e : ((T + c - 1) / c - 1) * c + c = ((T + c - 1) / c) * c := by
      conv_rhs => rw [hKsucc]
      rw [Nat.add_mul, Nat.one_mul]
    have e2 : min (((T + c - 1) / c - 1) * c + c) T = T := by
      rw [e]; exact Nat.min_eq_right hTle
    rw [e2, Nat.min_self]
    exact congrArg (fun z => [z]) (last_chunk_len T c hT hc)

/-- Slide counts of the chunks written by the split loop. -/
theorem splitLoop_lens (prs : Prs) (stem : String) (c : Nat)
    (hT : 0 < prs.slides.length) (hc : 0 < c) :
    (splitLoop prs stem c).map (fun q => q.2.slides.length)
      = List.replicate ((prs.slides.length + c - 1) / c - 1) c
          ++ [if prs.slides.length % c = 0 then c
              else prs.slides.length % c] := by
  rw [splitLoop_eq prs stem c hc, List.map_map]
  have hcomp : ∀ i ∈ List.range ((prs.slides.length + c - 1) / c),
      ((fun q : String × Prs => q.2.slides.length) ∘ (fun i =>
        (chunkName stem c (i * c) (min (i * c + c) prs.slides.length),
         splitChunk prs (i * c) c))) i
      = min (min (i * c + c) prs.slides.length - i * c) (prs.slides.length - i * c) := by
    intro i _
    simp only [Function.comp_apply]
    rw [splitChunk_slides]
    rw [List.length_take, List.length_drop]
  rw [List.map_congr_left hcomp]
  exact chunk_lens prs.slides.length c hT hc

/-- Names of the files written by the split loop. -/
theorem splitLoop_names (prs : Prs) (stem : String) (c : Nat) (hc : 0 < c) :
    (splitLoop prs stem c).map Prod.fst
      = (List.range ((prs.slides.length + c - 1) / c)).map (fun i =>
          chunkName stem c (i * c) (min (i * c + c) prs.slides.length)) := by
  rw [splitLoop_eq prs stem c hc, List.map_map]
  rfl

/-! ### Shared observations about the merged document -/

theorem merged_slides_length (base : Prs) (rest : List (String × Prs)) :
    (base.slides ++ appendedSlides base rest).length
      = ((base :: rest.map (fun q => q.2)).map (fun s => s.slides.length)).sum := by
  rw [List.length_append]
  unfold appendedSlides
  rw [List.length_map, List.length_flatten]
  simp only [List.map_cons, List.sum_cons, List.map_map]
  rfl

theorem merged_slides_shapes (base : Prs) (rest : List (String × Prs)) :
    (base.slides ++ appendedSlides base rest).map (fun s => s.shapes)
      = (((base :: rest.map (fun q => q.2)).map (fun s => s.slides)).flatten).map
          (fun s => s.shapes) := by
  simp only [List.map_cons, List.flatten_cons, List.map_append]
  congr 1
  unfold appendedSlides
  rw [List.map_map]
  have hfun : ((fun s : Slide => s.shapes) ∘ recreatedSlide (blankLayout base.layouts))
      = fun s : Slide => s.shapes := by
    funext s; rfl
  rw [hfun, List.map_map]
  rfl

/-! ### Claim theorems -/

/-- **C1.** The slide-retention primitive (as inlined in `split_presentation`
and `extract_slides`): for every loaded presentation and every in-range set
of zero-indexed keep positions, removing the complement indices in
descending order — dropping each removed slide's relationship and its
slide-list entry — leaves exactly the kept slides (the positions satisfying
the keep-set membership), in their original relative order. -/
theorem claim_C1_retention (p : Prs) (keep : List Nat)
    (_hin : ∀ i ∈ keep, i < p.slides.length) :
    (retainSlides p keep).slides = idxFilter (fun i => decide (i ∈ keep)) 0 p.slides :=
  retainSlides_slides p keep

theorem claim_C1_retention_witness :
    (∀ i ∈ [0, 2], i < demoPrs.slides.length)
    ∧ (retainSlides demoPrs [0, 2]).slides
        = idxFilter (fun i => decide (i ∈ [0, 2])) 0 demoPrs.slides :=
  ⟨by decide, claim_C1_retention demoPrs [0, 2] (by decide)⟩

/-- **C2.** For a source with `T ≥ 1` slides and chunk size `C ≥ 1`,
`split_presentation` returns `ceil(T/C)` files in chunk order; every chunk
holds `C` slides except the last, which holds `T mod C` (or `C` when `C`
divides `T`); concatenating the chunks' slides in the returned order
reproduces the original slide order. -/
theorem claim_C2_split (path stem : String) (prs : Prs) (c : Nat)
    (hT : 0 < prs.slides.length) (hc : 0 < c) :
    ∃ files,
      split_presentation path (File.good prs) stem (some c) = Except.ok files
      ∧ files.length = (prs.slides.length + c - 1) / c
      ∧ files.map (fun q => q.2.slides.length)
          = List.replicate ((prs.slides.length + c - 1) / c - 1) c
            ++ [if prs.slides.length % c = 0 then c else prs.slides.length % c]
      ∧ ((files.map (fun q => q.2.slides)).flatten) = prs.slides := by
  refine ⟨splitLoop prs stem c, split_presentation_ok path stem prs c hT hc,
    splitLoop_length prs stem c hc, splitLoop_lens prs stem c hT hc,
    splitLoop_flatten prs stem c hc⟩

theorem claim_C2_split_witness :
    0 < demoPrs.slides.length
    ∧ ∃ files,
        split_presentation "in.pptx" (File.good demoPrs) "deck" (some 2) = Except.ok files
        ∧ files.length = (demoPrs.slides.length + 2 - 1) / 2
        ∧ files.map (fun q => q.2.slides.length)
            = List.replicate ((demoPrs.slides.length + 2 - 1) / 2 - 1) 2
              ++ [if demoPrs.slides.length % 2 = 0 then 2 else demoPrs.slides.length % 2]
        ∧ ((files.map (fun q => q.2.slides)).flatten) = demoPrs.slides :=
  ⟨by decide, claim_C2_split "in.pptx" "deck" demoPrs 2 (by decide) (by decide)⟩

/-- **C7.** Split output naming: chunk `i` (0-based) is named
`<stem>_slide_<N>.pptx` with `N = i*C+1` zero-padded to 3 digits when the
chunk size is 1, and `<stem>_slides_<start>-<end>.pptx` with 1-indexed
3-digit-padded `start = i*C+1`, `end = min((i+1)*C, T)` otherwise — also
for a final chunk holding a single slide when `C > 1`. -/
theorem claim_C7_names (path stem : String) (prs : Prs) (c : Nat)
    (hT : 0 < prs.slides.length) (hc : 0 < c) :
    ∃ files,
      split_presentation path (File.good prs) stem (some c) = Except.ok files
      ∧ files.map Prod.fst
          = (List.range ((prs.slides.length + c - 1) / c)).map (fun i =>
              if c = 1 then
                stem ++ "_slide_" ++ pad3 (i * c + 1) ++ ".pptx"
              else
                stem ++ "_slides_" ++ pad3 (i * c + 1) ++ "-"
                  ++ pad3 (min ((i + 1) * c) prs.slides.length) ++ ".pptx") := by
  refine ⟨splitLoop prs stem c, split_presentation_ok path stem prs c hT hc, ?_⟩
  rw [splitLoop_names prs stem c hc]
  apply List.map_congr_left
  intro i _
  unfold chunkName
  have e : (i + 1) * c = i * c + c := by rw [Nat.add_mul, Nat.one_mul]
  rw [e]

theorem claim_C7_names_witness :
    0 < demoPrs.slides.length
    ∧ ∃ files,
        split_presentation "in.pptx" (File.good demoPrs) "deck" (some 2) = Except.ok files
        ∧ files.map Prod.fst
            = (List.range ((demoPrs.slides.length + 2 - 1) / 2)).map (fun i =>
                if 2 = 1 then
                  "deck" ++ "_slide_" ++ pad3 (i * 2 + 1) ++ ".pptx"
                else
                  "deck" ++ "_slides_" ++ pad3 (i * 2 + 1) ++ "-"
                    ++ pad3 (min ((i + 1) * 2) demoPrs.slides.length) ++ ".pptx") :=
  ⟨by decide, claim_C7_names "in.pptx" "deck" demoPrs 2 (by decide) (by decide)⟩

/-- **C3.** Merging a non-empty list of existing (loadable) presentations,
whose first element — the base — has a blank layout to fall back on, writes
a deck with the sum of the slide counts, ordered source-first then
slide-order within each source: the base document's slides are kept as-is
and every slide of each subsequent source is re-created on the base's blank
layout (layout index 6, falling back to the first layout) with all of its
shapes deep-copied in order. -/
theorem claim_C3_merge (p0 : String) (base : Prs) (rest : List (String × Prs))
    (out : String) (hlay : base.layouts ≠ []) :
    ∃ m,
      merge_presentations
          ((p0, File.good base) :: rest.map (fun q => (q.1, File.good q.2))) out
        = Except.ok (out, m)
      ∧ m.slides.length
          = ((base :: rest.map (fun q => q.2)).map (fun s => s.slides.length)).sum
      ∧ m.slides.map (fun s => s.shapes)
          = (((base :: rest.map (fun q => q.2)).map (fun s => s.slides)).flatten).map
              (fun s => s.shapes)
      ∧ m.slides = base.slides ++ appendedSlides base rest :=
  ⟨{ base with slides := base.slides ++ appendedSlides base rest },
   merge_presentations_ok p0 base rest out hlay,
   merged_slides_length base rest,
   merged_slides_shapes base rest,
   rfl⟩

theorem claim_C3_merge_witness :
    demoPrs.layouts ≠ []
    ∧ ∃ m,
        merge_presentations
            ((("a.pptx", File.good demoPrs)) :: [("b.pptx", demoPrs5)].map
              (fun q => (q.1, File.good q.2))) "out.pptx"
          = Except.ok ("out.pptx", m)
        ∧ m.slides.length
            = ((demoPrs :: [("b.pptx", demoPrs5)].map (fun q => q.2)).map
                (fun s => s.slides.length)).sum
        ∧ m.slides.map (fun s => s.shapes)
            = (((demoPrs :: [("b.pptx", demoPrs5)].map (fun q => q.2)).map
                (fun s => s.slides)).flatten).map (fun s => s.shapes)
        ∧ m.slides = demoPrs.slides ++ appendedSlides demoPrs [("b.pptx", demoPrs5)] :=
  ⟨by decide,
   claim_C3_merge "a.pptx" demoPrs [("b.pptx", demoPrs5)] "out.pptx" (by decide)⟩

/-- **C10.** Merging a singleton list of one existing source acts as the
identity on content: the file is loaded as the base, the slide-adding loop
is skipped, and the document is written back unchanged, with the output
path returned. -/
theorem claim_C10_merge_singleton (p : String) (prs : Prs) (out : String) :
    merge_presentations [(p, File.good prs)] out = Except.ok (out, prs) := rfl

/-- **C8.** Background-copy failure during merge is swallowed and never
fatal: even when every source slide's fill is non-solid — so every
background-replication attempt raises — `merge_presentations` still
completes and writes the output with all shapes copied; the swallowed
failure leaves each re-created slide with the fresh default solid fill that
`fill.solid()` installed before the raise, and no error is reported. -/
theorem claim_C8_background (p0 : String) (base : Prs) (rest : List (String × Prs))
    (out : String) (hlay : base.layouts ≠ [])
    (hfail : ∀ q ∈ rest, ∀ s ∈ q.2.slides, s.fill = Fill.other) :
    ∃ m,
      merge_presentations
          ((p0, File.good base) :: rest.map (fun q => (q.1, File.good q.2))) out
        = Except.ok (out, m)
      ∧ m.slides.map (fun s => s.shapes)
          = (((base :: rest.map (fun q => q.2)).map (fun s => s.slides)).flatten).map
              (fun s => s.shapes)
      ∧ (m.slides.drop base.slides.length).map (fun s => s.fill)
          = List.replicate ((rest.map (fun q => q.2.slides)).flatten.length)
              (Fill.solid 0) := by
  refine ⟨{ base with slides := base.slides ++ appendedSlides base rest },
    merge_presentations_ok p0 base rest out hlay,
    merged_slides_shapes base rest, ?_⟩
  show ((base.slides ++ appendedSlides base rest).drop base.slides.length).map _ = _
  rw [List.drop_left]
  unfold appendedSlides
  rw [List.map_map]
  have hall : ∀ s ∈ (rest.map (fun q => q.2.slides)).flatten,
      ((fun s : Slide => s.fill) ∘ recreatedSlide (blankLayout base.layouts)) s
        = Fill.solid 0 := by
    intro s hs
    obtain ⟨l, hl, hsl⟩ := List.mem_flatten.mp hs
    obtain ⟨q, hq, rfl⟩ := List.mem_map.mp hl
    have : s.fill = Fill.other := hfail q hq s hsl
    simp only [Function.comp_apply, recreatedSlide, this]
  rw [List.map_congr_left hall]
  rw [show (fun _ : Slide => Fill.solid 0) = Function.const Slide (Fill.solid 0) from rfl,
    List.map_const]

theorem claim_C8_background_witness :
    demoPrsOther.layouts ≠ []
    ∧ (∀ q ∈ [("b.pptx", demoPrsOther)], ∀ s ∈ q.2.slides, s.fill = Fill.other)
    ∧ ∃ m,
        merge_presentations
            ((("a.pptx", File.good demoPrsOther)) :: [("b.pptx", demoPrsOther)].map
              (fun q => (q.1, File.good q.2))) "out.pptx"
          = Except.ok ("out.pptx", m)
        ∧ m.slides.map (fun s => s.shapes)
            = (((demoPrsOther :: [("b.pptx", demoPrsOther)].map (fun q => q.2)).map
                (fun s => s.slides)).flatten).map (fun s => s.shapes)
        ∧ (m.slides.drop demoPrsOther.slides.length).map (fun s => s.fill)
            = List.replicate
                (([("b.pptx", demoPrsOther)].map (fun q => q.2.slides)).flatten.length)
                (Fill.solid 0) :=
  ⟨by decide, by decide,
   claim_C8_background "a.pptx" demoPrsOther [("b.pptx", demoPrsOther)] "out.pptx"
     (by decide) (by decide)⟩

theorem splitLoop_mem_layouts (prs : Prs) (stem : String) (c : Nat) :
    ∀ q ∈ splitLoop prs stem c, q.2.layouts = prs.layouts := by
  intro q hq
  unfold splitLoop at hq
  obtain ⟨s, _, rfl⟩ := List.mem_map.mp hq
  exact splitChunk_layouts prs s c

/-- **C6.** Round-trip: splitting a deck with `T ≥ 1` slides (and a layout
to re-home slides on) into single-slide files, then merging those files in
order, reproduces the original slide count and the original per-slide shape
content in order; background fills are not part of the guarantee. -/
theorem claim_C6_roundtrip (path stem out : String) (prs : Prs)
    (hT : 0 < prs.slides.length) (hlay : prs.layouts ≠ []) :
    ∃ files m,
      split_presentation path (File.good prs) stem (some 1) = Except.ok files
      ∧ merge_presentations (files.map (fun q => (q.1, File.good q.2))) out
          = Except.ok (out, m)
      ∧ m.slides.length = prs.slides.length
      ∧ m.slides.map (fun s => s.shapes) = prs.slides.map (fun s => s.shapes) := by
  have h1 : 0 < (1 : Nat) := Nat.one_pos
  have hsplit := split_presentation_ok path stem prs 1 hT h1
  have hlen : (splitLoop prs stem 1).length = prs.slides.length := by
    rw [splitLoop_length prs stem 1 h1]
    omega
  have hflat0 := splitLoop_flatten prs stem 1 h1
  cases hfl : splitLoop prs stem 1 with
  | nil =>
      rw [hfl] at hlen
      simp at hlen
      omega
  | cons f0 frest =>
      rw [hfl] at hsplit hflat0
      have hf0 : f0.2.layouts = prs.layouts := by
        apply splitLoop_mem_layouts prs stem 1
        rw [hfl]
        exact List.mem_cons_self _ _
      have hlay0 : f0.2.layouts ≠ [] := by rw [hf0]; exact hlay
      have hflat : f0.2.slides ++ ((frest.map (fun q => q.2.slides)).flatten)
          = prs.slides := by
        simpa using hflat0
      refine ⟨f0 :: frest,
        { f0.2 with slides := f0.2.slides ++ appendedSlides f0.2 frest },
        hsplit, ?_, ?_, ?_⟩
      · have hmap : (f0 :: frest).map (fun q => (q.1, File.good q.2))
            = (f0.1, File.good f0.2) :: frest.map (fun q => (q.1, File.good q.2)) := by
          simp
        rw [hmap]
        exact merge_presentations_ok f0.1 f0.2 frest out hlay0
      · show (f0.2.slides ++ appendedSlides f0.2 frest).length = _
        rw [List.length_append]
        unfold appendedSlides
        rw [List.length_map]
        have hle := congrArg List.length hflat
        rw [List.length_append] at hle
        omega
      · show (f0.2.slides ++ appendedSlides f0.2 frest).map _ = _
        rw [List.map_append]
        unfold appendedSlides
        rw [List.map_map]
        have hfun : ((fun s : Slide => s.shapes)
            ∘ recreatedSlide (blankLayout f0.2.layouts)) = fun s : Slide => s.shapes := by
          funext s
          rfl
        rw [hfun, ← List.map_append, hflat]

theorem claim_C6_roundtrip_witness :
    0 < demoPrs.slides.length ∧ demoPrs.layouts ≠ []
    ∧ ∃ files m,
        split_presentation "in.pptx" (File.good demoPrs) "deck" (some 1) = Except.ok files
        ∧ merge_presentations (files.map (fun q => (q.1, File.good q.2))) "out.pptx"
            = Except.ok ("out.pptx", m)
        ∧ m.slides.length = demoPrs.slides.length
        ∧ m.slides.map (fun s => s.shapes) = demoPrs.slides.map (fun s => s.shapes) :=
  ⟨by decide, by decide,
   claim_C6_roundtrip "in.pptx" "deck" "out.pptx" demoPrs (by decide) (by decide)⟩

/-- **C4.** `extract_slides` validation on a non-empty deck: any `start`
with `start < 1` or `start > total` fails with the start-range `ValueError`
naming the valid bound `(1-total)`; otherwise any effective `end` (the
given one, or `total` when `None`) with `end < start` or `end > total`
fails with the end-range `ValueError` naming `(start-total)`; in-range
`start`/`end` always succeed.  In this embedding an `Except.error` result
is a raise before `new_prs.save`, so a validation failure writes no output
file. -/
theorem claim_C4_extract (path : String) (prs : Prs) (start : Int)
    (endOpt : Option Int) (hT : prs.slides ≠ []) :
    ((start < 1 ∨ (prs.slides.length : Int) < start) →
        extract_slides path (File.good prs) start endOpt
          = Except.error (PyErr.valueError ("Start slide " ++ toString start
              ++ " is out of range (1-" ++ toString prs.slides.length ++ ")")))
    ∧ (¬ (start < 1 ∨ (prs.slides.length : Int) < start) →
        (endOpt.getD (prs.slides.length : Int) < start
          ∨ (prs.slides.length : Int) < endOpt.getD (prs.slides.length : Int)) →
        extract_slides path (File.good prs) start endOpt
          = Except.error (PyErr.valueError ("End slide "
              ++ toString (endOpt.getD (prs.slides.length : Int))
              ++ " is out of range (" ++ toString start ++ "-"
              ++ toString prs.slides.length ++ ")")))
    ∧ (¬ (start < 1 ∨ (prs.slides.length : Int) < start) →
        ¬ (endOpt.getD (prs.slides.length : Int) < start
          ∨ (prs.slides.length : Int) < endOpt.getD (prs.slides.length : Int)) →
        ∃ outPrs, extract_slides path (File.good prs) start endOpt
          = Except.ok outPrs) := by
  have h0 : ¬ (prs.slides.length = 0) := by
    simp only [List.length_eq_zero]
    exact hT
  refine ⟨?_, ?_, ?_⟩
  · intro h1
    simp only [extract_slides]
    rw [if_neg h0, if_pos h1]
  · intro h1 h2
    simp only [extract_slides]
    rw [if_neg h0, if_neg h1, if_pos h2]
  · intro h1 h2
    refine ⟨retainSlides prs (List.range' (start - 1).toNat
      ((endOpt.getD (prs.slides.length : Int)).toNat - (start - 1).toNat)), ?_⟩
    simp only [extract_slides]
    rw [if_neg h0, if_neg h1, if_neg h2]

theorem claim_C4_extract_witness :
    demoPrs.slides ≠ []
    ∧ extract_slides "in.pptx" (File.good demoPrs) 0 none
        = Except.error (PyErr.valueError ("Start slide " ++ toString (0 : Int)
            ++ " is out of range (1-" ++ toString demoPrs.slides.length ++ ")")) :=
  ⟨by decide,
   (claim_C4_extract "in.pptx" demoPrs 0 none (by decide)).1 (by decide)⟩

/-- **C9.** `verify_presentation` never raises for structurally broken
individual slides: on a document that opens, the report is returned in full
with `valid = true` and no document-level error; each slide's record
carries its 1-based number, and a slide whose inspection raises gets the
exception text in its `error` field while the remaining slides are still
inspected.  Verification is fatal — `valid = false` with a captured message
and no partial slide details — exactly when the document fails to open. -/
theorem claim_C9_verify (path : String) (prs : Prs) (msg : String) :
    ((verify_presentation path (File.good prs)).valid = true
     ∧ (verify_presentation path (File.good prs)).error = none
     ∧ (verify_presentation path (File.good prs)).slides = prs.slides.length
     ∧ (verify_presentation path (File.good prs)).slide_details.length
         = prs.slides.length
     ∧ ∀ i : Nat, (verify_presentation path (File.good prs)).slide_details.get? i
         = (prs.slides.get? i).map (fun s => inspectSlide (1 + i) s))
    ∧ verify_presentation path (File.corrupt msg)
        = { valid := false, error := some msg, slides := 0, slide_details := [],
            layouts := 0, masters := 0 } := by
  refine ⟨⟨rfl, rfl, rfl, ?_, ?_⟩, rfl⟩
  · show ((prs.slides.enumFrom 1).map _).length = _
    rw [List.length_map, List.enumFrom_length]
  · intro i
    show ((prs.slides.enumFrom 1).map _).get? i = _
    rw [List.get?_map, List.get?_enumFrom, Option.map_map]
    rfl

/-- **C5 (amended).** In the CLI `extract` body, a range string that fails
to parse — no dash, or a non-integer part — is reported as a user error
without the document ever being consulted (the outcome is the same for any
`File`, including a missing one).  However, the "Invalid range format"
error class is <em>not</em> distinct from document errors: any `ValueError`
raised by `extract_slides` after opening the document (such as an
out-of-range slide number) is caught by the same handler and reported with
the same "Invalid range format" prefix. -/
theorem claim_C5_range_errors (path : String) (input : File) (out r : String) :
    (¬ containsDash r →
        cliExtract path input out r
          = CliOutcome.errorExit "Error: Range must be in format 'start-end' or 'start-'")
    ∧ (∀ e, containsDash r → pyInt (splitFirstDash r).1 = Except.error e →
        cliExtract path input out r
          = CliOutcome.errorExit ("Error: Invalid range format - " ++ e))
    ∧ (∀ s e, containsDash r → pyInt (splitFirstDash r).1 = Except.ok s →
        parseEnd (splitFirstDash r).2 = Except.error e →
        cliExtract path input out r
          = CliOutcome.errorExit ("Error: Invalid range format - " ++ e))
    ∧ (∀ s en m, containsDash r → pyInt (splitFirstDash r).1 = Except.ok s →
        parseEnd (splitFirstDash r).2 = Except.ok en →
        extract_slides path input s en = Except.error (PyErr.valueError m) →
        cliExtract path input out r
          = CliOutcome.errorExit ("Error: Invalid range format - " ++ m)) := by
  refine ⟨?_, ?_, ?_, ?_⟩
  · intro h
    simp only [cliExtract]
    rw [if_pos h]
  · intro e hc he
    simp only [cliExtract]
    rw [if_neg (not_not_intro hc), he]
  · intro s e hc hs he
    simp only [cliExtract]
    rw [if_neg (not_not_intro hc), hs, he]
  · intro s en m hc hs hen hex
    simp only [cliExtract]
    rw [if_neg (not_not_intro hc), hs, hen]
    show (match extract_slides path input s en with
      | Except.ok o => CliOutcome.success o
      | Except.error (PyErr.valueError e) =>
          CliOutcome.errorExit ("Error: Invalid range format - " ++ e)
      | Except.error (PyErr.fileNotFound e) => CliOutcome.errorExit ("Error: " ++ e)
      | Except.error (PyErr.otherError e) => CliOutcome.errorExit ("Error: " ++ e)) = _
    rw [hex]

theorem claim_C5_range_errors_witness :
    (containsDash "abc-5" ∧ pyInt (splitFirstDash "abc-5").1
        = Except.error "invalid literal for int() with base 10: 'abc'")
    ∧ cliExtract "in.pptx" File.missing "out.pptx" "abc-5"
        = CliOutcome.errorExit ("Error: Invalid range format - "
            ++ "invalid literal for int() with base 10: 'abc'") :=
  ⟨⟨by decide, by decide⟩,
   (claim_C5_range_errors "in.pptx" File.missing "out.pptx" "abc-5").2.1
     "invalid literal for int() with base 10: 'abc'" (by decide) (by decide)⟩

/-- **C5 counterexample.** The claim's "reported distinctly from document
errors" is false: with a well-formed range `"0-3"` on an opened 5-slide
document, the out-of-range `ValueError` raised by `extract_slides` after
document I/O is reported by the CLI through the very same
"Invalid range format" message class. -/
theorem claim_C5_counterexample :
    cliExtract "in.pptx" (File.good demoPrs5) "out.pptx" "0-3"
      = CliOutcome.errorExit
          "Error: Invalid range format - Start slide 0 is out of range (1-5)" := by
  decide
